import Mathlib

/-!
Verification development for the abbreviation tracking and activation
context engine of the nova-emmet plugin (`src/abbreviation/index.ts`).

The TypeScript source is shallowly embedded below.  External collaborators
(the HTML/CSS structural parsers, the abbreviation extractor, output
options and the editor buffer) are modelled as oracle fields of an
environment record `Env`; queries that may throw are embedded in
`Except Unit`.  Machinery of this repository that lives outside the
provided sources (`src/lib/*.ts`, `AbbreviationTracker.ts`) is modelled
from the specification; each such definition carries a doc comment
starting with `Modelled from the spec:`.
-/

set_option autoImplicit false

namespace NovaEmmet

/-- The reserved tab-stop sentinel character, `String.fromCodePoint(0xFFFC)`
(`src/abbreviation/index.ts`, line 14). -/
def tabStop : Char := Char.ofNat 0xFFFC

/-- Scope marker constants of the external `emmet` library
(`CSSAbbreviationScope`); only their identity matters here. -/
def CSSAbbreviationScope.Section : String := "@@section"

/-- Scope marker constant of the external `emmet` library. -/
def CSSAbbreviationScope.Global : String := "@@global"

/-- Token kinds of the external `@emmetio/css-matcher` that occur in a
`CSSContext` (`TokenType`). -/
inductive TokenType where
  | Selector
  | PropertyName
  | PropertyValue
deriving DecidableEq, Repr

/-- A token of the external CSS structural parser: name, kind and
half-open buffer range. -/
structure CSSMatch where
  name : String
  type : TokenType
  range : Nat × Nat
deriving DecidableEq, Repr

/-- Result of the external `getCSSContext` query
(`@emmetio/action-utils`): current token under the caret, the stack of
enclosing ancestor tokens (innermost last), and the inline flag. -/
structure CSSContext where
  current : Option CSSMatch
  ancestors : List CSSMatch
  inline : Bool
deriving DecidableEq, Repr

/-- A tag token of the external HTML structural parser. -/
structure HTMLToken where
  name : String
  range : Nat × Nat
deriving DecidableEq, Repr

/-- Result of the external `getHTMLContext` query: current inline token
(if the caret is inside a tag), ancestor chain (innermost last) and the
embedded CSS context, when the caret is inside an embedded style island. -/
structure HTMLContext where
  current : Option HTMLToken
  ancestors : List HTMLToken
  css : Option CSSContext
deriving DecidableEq, Repr

/-- An attribute token of the external `@emmetio/html-matcher`
`attributes` scanner: name plus the raw (possibly quoted) value, absent
for value-less attributes. -/
structure AttrToken where
  name : String
  value : Option String
deriving DecidableEq, Repr

/-- Modelled from the spec: `getOutputOptions` from `src/lib/output.ts`
(not under `src/`) produces output-formatting preferences that are opaque
to this core; we model the value as the pair of arguments the core passes
to it (position, and the optional CSS `inline` flag). -/
structure OutputOpts where
  pos : Nat
  inlineCss : Option Bool
deriving DecidableEq, Repr

/-- Modelled from the spec: opaque output-formatting options constructor. -/
def getOutputOptions (pos : Nat) (inlineCss : Option Bool) : OutputOpts :=
  { pos := pos, inlineCss := inlineCss }

/-- The `context` member of an activation `UserConfig`: a name plus, for
markup contexts, the attribute map of the nearest open ancestor. -/
structure CtxInfo where
  name : String
  attributes : Option (List (String × String))
deriving DecidableEq, Repr

/-- The activation context (`UserConfig` of the external `emmet`
library, as populated by this plugin): effective syntax, abbreviation
type, optional context info and output options. -/
structure UserConfig where
  syn : String
  type : String
  context : Option CtxInfo
  options : OutputOpts
deriving DecidableEq, Repr

/-- Modelled from the spec: the parse result stored in a tracked
abbreviation (`parseResult`): either a valid parse or an error with a
position inside the abbreviation text. -/
inductive ParseResult where
  | valid (abbr : String)
  | error (abbr : String) (errPos : Nat) (message : String)
deriving DecidableEq, Repr

/-- The abbreviation text of a parse result (`.abbr` in the source). -/
def ParseResult.abbr : ParseResult → String
  | .valid a => a
  | .error a _ _ => a

/-- Modelled from the spec: the single mutable record of
`AbbreviationTracker.ts` (not under `src/`): half-open `range`, the
`forced` flag, the trigger-prefix `offset`, the current parse result
(`abbreviation` may be absent when nothing parsed) and the activation
options captured at start time. -/
structure TrackedAbbreviation where
  range : Nat × Nat
  forced : Bool
  offset : Nat
  abbreviation : Option ParseResult
  activationOptions : Option UserConfig
deriving DecidableEq, Repr

/-- Result of the external `extract` query: matched span and text. -/
structure ExtractedAbbr where
  start : Nat
  endPos : Nat
  abbr : String
deriving DecidableEq, Repr

/-- Modelled from the spec: stylesheet syntaxes recognised by the Syntax
Classifier (`src/lib/syntax.ts`, not under `src/`): a pure lookup over
the CSS family; the table is abbreviated to representative members. -/
def isCSS (s : String) : Bool :=
  ["css", "scss", "sass", "less", "sss", "stylus"].contains s

/-- Modelled from the spec: XML-dialect syntaxes of the Syntax Classifier. -/
def isXML (s : String) : Bool :=
  ["xml", "xsl"].contains s

/-- Modelled from the spec: markup (HTML-family) syntaxes of the Syntax
Classifier. -/
def isHTML (s : String) : Bool :=
  s == "html" || isXML s

/-- Modelled from the spec: JSX-classified syntaxes of the Syntax
Classifier. -/
def isJSX (s : String) : Bool :=
  ["jsx", "tsx"].contains s

/-- Character lookup, JS `s[i]` (yields `undefined` out of range). -/
def charAt? (s : String) (i : Nat) : Option Char :=
  s.data.get? i

/-- Modelled from the spec: buffer query `substring(editor, [from,to))`
(`substr` of `src/lib/utils.ts`, not under `src/`): the text of the
half-open range, clamped to the buffer. -/
def substr (content : String) (a b : Nat) : String :=
  ⟨(content.data.drop a).take (b - a)⟩

/-- The JavaScript `\s` whitespace class, restricted to the characters
relevant for this plugin's buffers. -/
def jsWhitespace (c : Char) : Bool :=
  c == ' ' || c == '\t' || c == '\n' || c == '\r' ||
  c == Char.ofNat 0x0b || c == Char.ofNat 0x0c ||
  c == Char.ofNat 0xa0 || c == Char.ofNat 0xfeff ||
  c == Char.ofNat 0x2028 || c == Char.ofNat 0x2029

/-- JS `String.prototype.trim` on a character list. -/
def jsTrim (l : List Char) : List Char :=
  ((l.dropWhile jsWhitespace).reverse.dropWhile jsWhitespace).reverse

/-- JS `a || b` for an optional string `a`: `b` when `a` is absent or
empty (falsy), else `a`. -/
def jsOrStr (a : Option String) (b : String) : String :=
  match a with
  | some s => if s = "" then b else s
  | none => b

/-- Modelled from the spec: `isQuoted` from `src/lib/utils.ts` (not under
`src/`): the string is wrapped in a matching pair of single or double
quotes. -/
def isQuoted (v : String) : Bool :=
  match v.data with
  | [] => false
  | c :: _ =>
    v.data.length ≥ 2 && (c == '"' || c == '\'') && v.data.getLast? == some c

/-- Modelled from the spec: `attributeValue` from `src/lib/utils.ts` (not
under `src/`): the raw attribute value with surrounding quotes stripped
if present; absent for value-less attributes. -/
def attributeValue (attr : AttrToken) : Option String :=
  match attr.value with
  | none => none
  | some v => some (if isQuoted v then ⟨(v.data.drop 1).dropLast⟩ else v)

/-- Helper `last` of `src/abbreviation/index.ts` (lines 310-312). -/
def last {α : Type} (arr : List α) : Option α :=
  arr.getLast?

/-- The environment: the buffer content, the document's declared syntax,
and the external oracle queries consumed by the engine.  Queries that may
throw are `Except`-valued. -/
structure Env where
  content : String
  docSyn : String
  cssCtxQ : Nat → Except Unit CSSContext
  htmlCtxQ : Nat → Bool → Except Unit HTMLContext
  attributesQ : String → String → List AttrToken
  extractQ : Nat → String → String → Option ExtractedAbbr
  parseAbbr : String → Option ParseResult
  enabled : Bool

/-- JS object assignment `m[k] = v`: overwrite an existing key in place,
otherwise append. -/
def objInsert (m : List (String × String)) (k v : String) : List (String × String) :=
  if m.any (fun p => p.1 == k) then
    m.map (fun p => if p.1 == k then (k, v) else p)
  else m ++ [(k, v)]

/-- Embedding of `getCSSAbbreviationContext` (`src/abbreviation/index.ts`, lines
250-263): nearest ancestor property name for a property value, the
Section marker for a selector without ancestors, Global otherwise. -/
def getCSSAbbreviationContext (ctx : CSSContext) : String :=
  match ctx.current, last ctx.ancestors with
  | some cur, some p =>
    if cur.type = TokenType.PropertyValue then p.name
    else CSSAbbreviationScope.Global
  | some cur, none =>
    if cur.type = TokenType.Selector then CSSAbbreviationScope.Section
    else CSSAbbreviationScope.Global
  | none, _ => CSSAbbreviationScope.Global

/-- Embedding of `isTypingBeforeSelector` (`src/abbreviation/index.ts`, lines
270-279): the current token is a selector starting exactly one character
before the caret (`range[0] === pos - 1`, over non-negative offsets:
`range.1 + 1 = pos`), and the first line of its text, trimmed, has
length exactly 1. -/
def isTypingBeforeSelector (env : Env) (pos : Nat) (ctx : CSSContext) : Bool :=
  match ctx.current with
  | some cur =>
    if cur.type = TokenType.Selector ∧ cur.range.1 + 1 = pos then
      let line := (substr env.content cur.range.1 cur.range.2).data.takeWhile
        (fun c => !(c == '\n' || c == '\r'))
      (jsTrim line).length == 1
    else false
  | none => false

/-- Embedding of `getCSSActivationContext` (`src/abbreviation/index.ts`, lines
225-248). -/
def getCSSActivationContext (env : Env) (pos : Nat) (syn : String)
    (ctx : CSSContext) : Option UserConfig :=
  match ctx.current with
  | none => none
  | some cur =>
    let allowedContext :=
      cur.type = TokenType.PropertyName ∨ cur.type = TokenType.PropertyValue ∨
        isTypingBeforeSelector env pos ctx = true
    if allowedContext then
      some { syn := syn
             type := "stylesheet"
             context := some { name := getCSSAbbreviationContext ctx, attributes := none }
             options := getOutputOptions pos (some ctx.inline) }
    else none

/-- Embedding of `getMarkupAbbreviationContext` (`src/abbreviation/index.ts`, lines
281-294): name and attribute map of the nearest open ancestor, absent at
top level. -/
def getMarkupAbbreviationContext (env : Env) (ctx : HTMLContext) : Option CtxInfo :=
  match last ctx.ancestors with
  | none => none
  | some parent =>
    let attrs := (env.attributesQ (substr env.content parent.range.1 parent.range.2)
        parent.name).foldl
      (fun m attr => objInsert m attr.name ((attributeValue attr).getD "")) []
    some { name := parent.name, attributes := some attrs }

/-- Embedding of `getEmbeddedStyleSyntax` (`src/abbreviation/index.ts`, lines
299-308): the value of the first `type` attribute of the enclosing
`style` element, if any. -/
def getEmbeddedStyleSyn (env : Env) (ctx : HTMLContext) : Option String :=
  match last ctx.ancestors with
  | some parent =>
    if parent.name = "style" then
      match (env.attributesQ (substr env.content parent.range.1 parent.range.2)
          parent.name).find? (fun a => a.name == "type") with
      | some attr => attributeValue attr
      | none => none
    else none
  | none => none

/-- Embedding of `getActivationContext` (`src/abbreviation/index.ts`, lines 200-223).
The external structural queries may throw; the source installs no
handler, so a thrown exception propagates (`Except.error`). -/
def getActivationContext (env : Env) (pos : Nat) : Except Unit (Option UserConfig) :=
  let syn := env.docSyn
  if isCSS syn then
    match env.cssCtxQ pos with
    | .error e => .error e
    | .ok ctx => .ok (getCSSActivationContext env pos syn ctx)
  else if isHTML syn then
    match env.htmlCtxQ pos (isXML syn) with
    | .error e => .error e
    | .ok ctx =>
      match ctx.css with
      | some cssCtx =>
        .ok (getCSSActivationContext env pos (jsOrStr (getEmbeddedStyleSyn env ctx) syn) cssCtx)
      | none =>
        if ctx.current.isNone then
          .ok (some { syn := syn
                      type := "markup"
                      context := getMarkupAbbreviationContext env ctx
                      options := getOutputOptions pos none })
        else .ok none
  else .ok none

/-- The opening-to-closing bracket map, the `pairs` object of
`src/abbreviation/index.ts` (lines 18-22). -/
def closeOf (c : Char) : Option Char :=
  if c = Char.ofNat 0x7b then some (Char.ofNat 0x7d)
  else if c = '[' then some ']'
  else if c = '(' then some ')'
  else none

/-- Embedding of `pairsEnd` (lines 24-27): the closing characters, in key order. -/
def pairsEnd : List Char := [Char.ofNat 0x7d, ']', ')']

/-- Modelled from the spec: `JSX_PREFIX` from `src/lib/emmet.ts` (not
under `src/`), the fixed trigger prefix for JSX abbreviations.  The
source compares it with a single character of the two-character window
(`prefix[0] === JSX_PREFIX`), so it is a one-character string; we use
`"<"`. -/
def jsxTriggerStr : String := "<"

/-- The trigger character of `jsxTriggerStr`. -/
def jsxTrigger : Char := '<'

/-- Regex `reJSXAbbrStart = /^[a-zA-Z.#\[\(]$/` applied to one character. -/
def isJSXAbbrStartCh (c : Char) : Bool :=
  c.isAlpha || c == '.' || c == '#' || c == '[' || c == '('

/-- The second character class of `reWordBound`: `[a-zA-Z.#!@\[\(]`. -/
def isAbbrStartCh (c : Char) : Bool :=
  c.isAlpha || c == '.' || c == '#' || c == '!' || c == '@' || c == '[' || c == '('

/-- The first character class of `reWordBound`: `[\s>;"\']`. -/
def isWordBoundCh (c : Char) : Bool :=
  jsWhitespace c || c == '>' || c == ';' || c == '"' || c == '\''

/-- Regex `reWordBound = /^[\s>;"\']?[a-zA-Z.#!@\[\(]$/` on the whole window:
matches a lone abbreviation-start character or a boundary character
followed by one. -/
def reWordBoundTest (s : String) : Bool :=
  match s.data with
  | [c] => isAbbrStartCh c
  | [b, c] => isWordBoundCh b && isAbbrStartCh c
  | _ => false

/-- The second character class of `reStylesheetWordBound`: `[a-zA-Z!@]`. -/
def isStylesheetAbbrStartCh (c : Char) : Bool :=
  c.isAlpha || c == '!' || c == '@'

/-- Regex `reStylesheetWordBound = /^[\s;]?[a-zA-Z!@]$/` on the whole window. -/
def reStylesheetWordBoundTest (s : String) : Bool :=
  match s.data with
  | [c] => isStylesheetAbbrStartCh c
  | [b, c] => (jsWhitespace b || b == ';') && isStylesheetAbbrStartCh c
  | _ => false

/-- Test `/[\r\n]/.test(abbr)`. -/
def containsNewline (s : String) : Bool :=
  s.data.any (fun c => c == '\r' || c == '\n')

/-- The backward walk of `shouldStopTracking` (lines 173-181): decrement
`targetPos` while it exceeds `start` and `abbr[targetPos - start - 1]`
is a closing bracket (an out-of-range JS index yields `undefined`, which
is never in `pairsEnd`). -/
def walkBackAux (abbr : String) (start : Nat) : Nat → Nat
  | 0 => 0
  | targetPos + 1 =>
    if start < targetPos + 1 then
      match charAt? abbr (targetPos + 1 - start - 1) with
      | some c =>
        if pairsEnd.contains c then walkBackAux abbr start targetPos
        else targetPos + 1
      | none => targetPos + 1
    else targetPos + 1

/-- Embedding of `shouldStopTracking` (`src/abbreviation/index.ts`, lines 142-187). -/
def shouldStopTracking (tracker : TrackedAbbreviation) (pos : Nat) : Bool :=
  if tracker.forced then false
  else
    match tracker.abbreviation with
    | none => true
    | some pr =>
      let abbr := pr.abbr
      if containsNewline abbr || abbr.data.contains tabStop then true
      else
        match pr with
        | .valid _ => false
        | .error _ errPos _ =>
          if tracker.range.2 = pos then true
          else if errPos = 0 then true
          else walkBackAux abbr tracker.range.1 tracker.range.2 = pos

/-- Modelled from the spec: `startTracking` of `AbbreviationTracker.ts`
(not under `src/`): creates the tracked record with the given half-open
range, trigger offset, activation options and forced flag; its parse
result comes from the opaque abbreviation parser applied to the logical
abbreviation text (the span minus the `offset` trigger characters). -/
def startTracking (env : Env) (start endPos : Nat) (offset : Nat)
    (options : Option UserConfig) (forced : Bool) : TrackedAbbreviation :=
  { range := (start, endPos)
    forced := forced
    offset := offset
    abbreviation := env.parseAbbr (substr env.content (start + offset) endPos)
    activationOptions := options }

/-- The boundary-detection phase of `startAbbreviationTracking` (lines
104-116): the candidate span start and trigger offset, if any.  In the
JSX branch, `prefix[0] === JSX_PREFIX` compares the window's first
character with the one-character trigger string. -/
def detectStartCand (pre : String) (syn : String) (pos : Nat) : Option (Nat × Nat) :=
  if isJSX syn then
    if pre.length == 2 && charAt? pre 0 == some jsxTrigger &&
        (charAt? pre 1).any isJSXAbbrStartCh then
      some (pos - 2, jsxTriggerStr.length)
    else none
  else if reWordBoundTest pre then some (pos - 1, 0)
  else none

/-- The paired-character test of `startAbbreviationTracking` (lines
118-123): the last character of the prefix window is an opening bracket
and the buffer character at `pos` is its matching closer. -/
def extendEndFlag (env : Env) (pre : String) (pos : Nat) : Bool :=
  match charAt? pre (pre.length - 1) with
  | some c =>
    match closeOf c with
    | some cl => substr env.content pos (pos + 1) == String.singleton cl
    | none => false
  | none => false

/-- Embedding of `startAbbreviationTracking` (`src/abbreviation/index.ts`, lines
97-137).  `Math.max(0, pos - 2)` is truncated subtraction on `Nat`; the
paired-character test (lines 118-123) is `extendEndFlag`. -/
def startAbbreviationTracking (env : Env) (pos : Nat) :
    Except Unit (Option TrackedAbbreviation) :=
  let pre := substr env.content (pos - 2) pos
  let syn := env.docSyn
  match detectStartCand pre syn pos with
  | none => .ok none
  | some (start, offset) =>
    let endPos := if extendEndFlag env pre pos then pos + 1 else pos
    match getActivationContext env pos with
    | .error e => .error e
    | .ok none => .ok none
    | .ok (some options) =>
      if options.type == "stylesheet" && !reStylesheetWordBoundTest pre then
        .ok none
      else
        .ok (some (startTracking env start endPos offset (some options) false))

/-- Embedding of `extractTracker` (`src/abbreviation/index.ts`, lines 82-92): extract
an abbreviation at the completion position, then start tracking over its
span with the activation context resolved at `abbr.start + 1`. -/
def extractTracker (env : Env) (ctxPos : Nat) :
    Except Unit (Option TrackedAbbreviation) :=
  let pre := if isJSX env.docSyn then jsxTriggerStr else ""
  match env.extractQ ctxPos env.docSyn pre with
  | none => .ok none
  | some a =>
    match getActivationContext env (a.start + 1) with
    | .error e => .error e
    | .ok options => .ok (some (startTracking env a.start a.endPos pre.length options false))

/-- The per-editor mutable state observed by the event handlers of
`initAbbreviationTracker`: the remembered last caret position (`lastPos`)
and the tracked abbreviation slot of the tracker module. -/
structure TrackerSlot where
  lastPos : Option Nat
  tracker : Option TrackedAbbreviation
deriving DecidableEq, Repr

/-- Embedding of `isEnabled` (lines 75-77): reads the process-wide configuration flag. -/
def isEnabled (env : Env) : Bool :=
  env.enabled

/-- The `onDidChangeSelection` handler (`src/abbreviation/index.ts`,
lines 49-53): when the configuration flag is enabled, remember the caret
as `lastPos`; the tracked abbreviation is not touched. -/
def onSelectionChange (env : Env) (caret : Nat) (st : TrackerSlot) : TrackerSlot :=
  if isEnabled env then { st with lastPos := some caret } else st

/-- The character immediately before the caret is an opening bracket
whose matching closer is the character immediately at the caret. -/
def absorbsClosingPair (content : String) (pos : Nat) : Bool :=
  if pos = 0 then false
  else
    match charAt? content (pos - 1) with
    | some c =>
      match closeOf c with
      | some cl => charAt? content pos == some cl
      | none => false
    | none => false

/-- The scope-name trichotomy as the code computes it, stated in the
claim's terms: a property value with an existing ancestor takes the
nearest ancestor's name; a selector with no ancestors takes the Section
marker; every other case takes the Global marker. -/
def cssScopeNameSpec (ctx : CSSContext) : String :=
  match ctx.current with
  | some cur =>
    if cur.type = TokenType.PropertyValue then
      match last ctx.ancestors with
      | some p => p.name
      | none => CSSAbbreviationScope.Global
    else if cur.type = TokenType.Selector ∧ ctx.ancestors = [] then
      CSSAbbreviationScope.Section
    else CSSAbbreviationScope.Global
  | none => CSSAbbreviationScope.Global

/-! ### Concrete test environments -/

/-- A base environment shared by concrete test instances; individual
fields are overridden per scenario. -/
def baseEnv : Env :=
  { content := ""
    docSyn := "html"
    cssCtxQ := fun _ => .error ()
    htmlCtxQ := fun _ _ => .error ()
    attributesQ := fun _ _ => []
    extractQ := fun _ _ _ => none
    parseAbbr := fun _ => none
    enabled := true }

/-- The environment of the C1 counterexample: a CSS document whose whole
content is the single character `a`, the first character of a top-level
selector; the structural parser reports a selector token with no
ancestors. -/
def envC1 : Env :=
  { baseEnv with
    docSyn := "css"
    content := "a"
    cssCtxQ := fun _ =>
      .ok { current := some { name := "a", type := TokenType.Selector, range := (0, 1) }
            ancestors := []
            inline := false } }

/-- An environment with the completions flag disabled. -/
def envOff : Env :=
  { baseEnv with enabled := false }

/-- An environment whose document is CSS and whose CSS structural query
throws. -/
def envErrCss : Env :=
  { baseEnv with docSyn := "css" }

/-- A CSS context whose current token is a property name at top level;
used by the embedded-style scenarios. -/
def cssPropName : CSSContext :=
  { current := some { name := "col", type := TokenType.PropertyName, range := (9, 12) }
    ancestors := []
    inline := false }

/-- The embedded-style environment of the C2 witness: the enclosing
`style` element carries `type="text/css"`. -/
def envC2w : Env :=
  { baseEnv with
    htmlCtxQ := fun _ _ =>
      .ok { current := none
            ancestors := [{ name := "style", range := (0, 22) }]
            css := some cssPropName }
    attributesQ := fun _ _ => [{ name := "type", value := some "text/css" }] }

/-- The embedded-style environment of the C2 counterexample: the
enclosing `style` element has no `type` attribute. -/
def envC2 : Env :=
  { baseEnv with
    htmlCtxQ := fun _ _ =>
      .ok { current := none
            ancestors := [{ name := "style", range := (0, 7) }]
            css := some cssPropName } }

/-- The extraction environment of the C10 witness: extraction yields the
span `[2,5)` but the activation context at position 3 resolves to
nothing (the caret is inside a tag). -/
def envC10 : Env :=
  { baseEnv with
    extractQ := fun _ _ _ => some { start := 2, endPos := 5, abbr := "abc" }
    htmlCtxQ := fun _ _ =>
      .ok { current := some { name := "div", range := (0, 9) }, ancestors := [], css := none } }

/-- A CSS environment whose structural query succeeds but reports no
current token. -/
def envCssNoTok : Env :=
  { baseEnv with
    docSyn := "css"
    cssCtxQ := fun _ => .ok { current := none, ancestors := [], inline := false } }

/-- An HTML environment whose structural query succeeds and reports a
current inline token (caret inside a tag) and no embedded style island. -/
def envHtmlInTag : Env :=
  { baseEnv with
    htmlCtxQ := fun _ _ =>
      .ok { current := some { name := "div", range := (0, 9) }, ancestors := [], css := none } }

/-- An HTML environment whose structural query reports an embedded style
island that itself has no current CSS token. -/
def envEmbNoTok : Env :=
  { baseEnv with
    htmlCtxQ := fun _ _ =>
      .ok { current := none
            ancestors := []
            css := some { current := none, ancestors := [], inline := false } } }

/-- The boundary environment of the C7 witness: buffer `x ()`, caret
just after the `(`, markup activation context available. -/
def envC7 : Env :=
  { baseEnv with
    content := "x ()"
    htmlCtxQ := fun _ _ => .ok { current := none, ancestors := [], css := none } }

/-! ### Helper lemmas -/

lemma charAt?_substr (content : String) (a b i : Nat) :
    charAt? (substr content a b) i =
      if i < b - a then charAt? content (a + i) else none := by
  show ((content.data.drop a).take (b - a)).get? i =
    if i < b - a then content.data.get? (a + i) else none
  simp only [List.get?_eq_getElem?]
  by_cases h : i < b - a
  · rw [List.getElem?_take_of_lt h, List.getElem?_drop, if_pos h]
  · rw [if_neg h]
    apply List.getElem?_eq_none
    have := (content.data.drop a).length_take (b - a)
    omega

lemma length_substr (content : String) (a b : Nat) :
    (substr content a b).length = min (b - a) (content.data.length - a) := by
  show ((content.data.drop a).take (b - a)).length = _
  simp [List.length_take, List.length_drop]

lemma substr_one (content : String) (pos : Nat) :
    substr content pos (pos + 1) =
      match charAt? content pos with
      | some d => String.singleton d
      | none => "" := by
  cases h : charAt? content pos with
  | none =>
    have hlen : content.data.length ≤ pos := by
      by_contra hc
      rw [not_le] at hc
      unfold charAt? at h
      rw [List.get?_eq_getElem?, List.getElem?_eq_getElem hc] at h
      exact Option.noConfusion h
    show String.mk ((content.data.drop pos).take (pos + 1 - pos)) = ""
    rw [List.drop_eq_nil_of_le hlen, List.take_nil]
  | some d =>
    have h1 : (content.data.drop pos)[0]? = some d := by
      rw [List.getElem?_drop]
      unfold charAt? at h
      rw [List.get?_eq_getElem?] at h
      simpa using h
    show String.mk ((content.data.drop pos).take (pos + 1 - pos)) = _
    cases hdrop : content.data.drop pos with
    | nil => rw [hdrop] at h1; exact Option.noConfusion h1
    | cons x xs =>
      rw [hdrop] at h1
      simp only [List.getElem?_cons_zero, Option.some.injEq] at h1
      subst h1
      have : pos + 1 - pos = 1 := by omega
      rw [this]
      rfl

lemma empty_beq_singleton (cl : Char) : (("" : String) == String.singleton cl) = false := by
  rw [beq_eq_false_iff_ne]
  intro h
  have : ("" : String).data = (String.singleton cl).data := by rw [h]
  exact List.noConfusion this

lemma none_beq_some (cl : Char) : ((none : Option Char) == some cl) = false := rfl

lemma singleton_beq_singleton (d cl : Char) :
    (String.singleton d == String.singleton cl) = (some d == some cl) := by
  by_cases h : d = cl
  · subst h
    simp
  · have h1 : String.singleton d ≠ String.singleton cl := by
      intro hc
      have h2 : [d] = [cl] := congrArg String.data hc
      exact h (List.head_eq_of_cons_eq h2)
    rw [beq_eq_false_iff_ne.mpr h1, beq_eq_false_iff_ne.mpr (by simpa using h)]

lemma extendEnd_eq_absorb (env : Env) (pos : Nat)
    (hne : substr env.content (pos - 2) pos ≠ "") :
    extendEndFlag env (substr env.content (pos - 2) pos) pos =
      absorbsClosingPair env.content pos := by
  have hp0 : pos ≠ 0 := by
    intro h
    subst h
    exact hne rfl
  by_cases hlen : pos < env.content.data.length
  · -- the caret is strictly inside the buffer: both sides inspect the
    -- characters content[pos-1] and content[pos]
    have hlast : charAt? (substr env.content (pos - 2) pos)
        ((substr env.content (pos - 2) pos).length - 1) =
        charAt? env.content (pos - 1) := by
      have hL : (substr env.content (pos - 2) pos).length = pos - (pos - 2) := by
        rw [length_substr]; omega
      rw [hL, charAt?_substr, if_pos (by omega)]
      congr 1
      omega
    obtain ⟨c, hc⟩ : ∃ c, charAt? env.content (pos - 1) = some c := by
      unfold charAt?
      rw [List.get?_eq_getElem?, List.getElem?_eq_getElem (by omega)]
      exact ⟨_, rfl⟩
    obtain ⟨d, hd⟩ : ∃ d, charAt? env.content pos = some d := by
      unfold charAt?
      rw [List.get?_eq_getElem?, List.getElem?_eq_getElem hlen]
      exact ⟨_, rfl⟩
    have hL : extendEndFlag env (substr env.content (pos - 2) pos) pos =
        (match closeOf c with
         | some cl => (some d == some cl)
         | none => false) := by
      unfold extendEndFlag
      rw [hlast, hc]
      show (match closeOf c with
            | some cl => substr env.content pos (pos + 1) == String.singleton cl
            | none => false) =
          (match closeOf c with
           | some cl => (some d == some cl)
           | none => false)
      cases closeOf c with
      | none => rfl
      | some cl =>
        rw [substr_one, hd]
        exact singleton_beq_singleton d cl
    have hR : absorbsClosingPair env.content pos =
        (match closeOf c with
         | some cl => (some d == some cl)
         | none => false) := by
      unfold absorbsClosingPair
      rw [if_neg hp0, hc]
      show (match closeOf c with
            | some cl => (charAt? env.content pos == some cl)
            | none => false) =
          (match closeOf c with
           | some cl => (some d == some cl)
           | none => false)
      cases closeOf c with
      | none => rfl
      | some cl =>
        rw [hd]
    rw [hL, hR]
  · -- the caret is at or past the end of the buffer: no character
    -- follows it, so neither side extends
    have hd : charAt? env.content pos = none := by
      unfold charAt?
      rw [List.get?_eq_getElem?]
      exact List.getElem?_eq_none (by omega)
    have hL : extendEndFlag env (substr env.content (pos - 2) pos) pos = false := by
      unfold extendEndFlag
      cases charAt? (substr env.content (pos - 2) pos)
          ((substr env.content (pos - 2) pos).length - 1) with
      | none => rfl
      | some c =>
        show (match closeOf c with
              | some cl => substr env.content pos (pos + 1) == String.singleton cl
              | none => false) = false
        cases closeOf c with
        | none => rfl
        | some cl =>
          rw [substr_one, hd]
          exact empty_beq_singleton cl
    have hR : absorbsClosingPair env.content pos = false := by
      unfold absorbsClosingPair
      rw [if_neg hp0]
      cases charAt? env.content (pos - 1) with
      | none => rfl
      | some c =>
        show (match closeOf c with
              | some cl => (charAt? env.content pos == some cl)
              | none => false) = false
        cases closeOf c with
        | none => rfl
        | some cl =>
          rw [hd]
          rfl
    rw [hL, hR]

lemma detect_some_ne_empty (pre syn : String) (pos : Nat) (r : Nat × Nat)
    (h : detectStartCand pre syn pos = some r) : pre ≠ "" := by
  intro he
  subst he
  unfold detectStartCand at h
  split at h
  · split at h
    · rename_i hcond
      exact absurd hcond (by decide)
    · exact Option.noConfusion h
  · split at h
    · rename_i hw
      exact absurd hw (by decide)
    · exact Option.noConfusion h

/-! ### Claim theorems -/

/-- C5: for a tracked abbreviation with `forced = true`, `shouldStop`
returns false for every caret position — regardless of the parse result,
of multi-line text, or of no abbreviation being parsed at all. -/
theorem forced_never_stops (tracker : TrackedAbbreviation) (pos : Nat)
    (h : tracker.forced = true) :
    shouldStopTracking tracker pos = false := by
  simp [shouldStopTracking, h]

/-- Witness for C5: a forced tracker with a multi-line error parse and a
forced tracker with no parse at all are both kept. -/
theorem forced_never_stops_witness :
    shouldStopTracking
      { range := (0, 3), forced := true, offset := 0,
        abbreviation := some (.error "a\nb" 0 "m"), activationOptions := none } 3 = false ∧
    shouldStopTracking
      { range := (0, 3), forced := true, offset := 0,
        abbreviation := none, activationOptions := none } 7 = false :=
  ⟨forced_never_stops _ 3 rfl, forced_never_stops _ 7 rfl⟩

/-- C6: a non-forced tracked abbreviation whose text contains a line
break or the tab-stop sentinel stops tracking, at every caret position,
for valid and error parses alike. -/
theorem newline_or_tabstop_stops (tracker : TrackedAbbreviation) (pos : Nat)
    (pr : ParseResult)
    (hf : tracker.forced = false)
    (ha : tracker.abbreviation = some pr)
    (hnl : containsNewline pr.abbr = true ∨ pr.abbr.data.contains tabStop = true) :
    shouldStopTracking tracker pos = true := by
  have h' : containsNewline pr.abbr = true ∨ tabStop ∈ pr.abbr.data := by
    rcases hnl with h | h
    · exact Or.inl h
    · exact Or.inr (by simpa using h)
  rcases h' with h | h <;> simp [shouldStopTracking, hf, ha, h]

/-- Witness for C6: a valid parse containing the tab-stop sentinel and
an error parse containing a newline both stop, at caret positions away
from the range end. -/
theorem newline_or_tabstop_stops_witness :
    shouldStopTracking
      { range := (0, 2), forced := false, offset := 0,
        abbreviation := some (.valid ⟨['a', tabStop]⟩), activationOptions := none } 9 = true ∧
    shouldStopTracking
      { range := (0, 3), forced := false, offset := 0,
        abbreviation := some (.error "a\rb" 2 "m"), activationOptions := none } 1 = true :=
  ⟨newline_or_tabstop_stops _ 9 _ rfl rfl (Or.inr (by decide)),
   newline_or_tabstop_stops _ 1 _ rfl rfl (Or.inl (by decide))⟩

/-- C4: for a non-forced tracker whose parse result is an error and
whose text has no line break and no tab-stop sentinel, `shouldStop` is
true exactly when the caret sits at the end of the tracked range, or the
error position is 0, or the caret sits at the boundary obtained by
walking backward from the range end over trailing closing brackets of
the abbreviation text. -/
theorem error_stop_characterization (tracker : TrackedAbbreviation) (pos : Nat)
    (a : String) (errPos : Nat) (msg : String)
    (hf : tracker.forced = false)
    (ha : tracker.abbreviation = some (.error a errPos msg))
    (hnl : containsNewline a = false)
    (hts : a.data.contains tabStop = false) :
    shouldStopTracking tracker pos = true ↔
      (pos = tracker.range.2 ∨ errPos = 0 ∨
        pos = walkBackAux a tracker.range.1 tracker.range.2) := by
  have hts' : tabStop ∉ a.data := by simpa using hts
  simp [shouldStopTracking, hf, ha, ParseResult.abbr, hnl, hts']
  omega

/-- Witness for C4: abbreviation text `"ab)"` with error position 1 in
range `[2,5)`; the backward walk over the trailing `)` lands at 4, so a
caret at 4 stops while the range end is 5 and the error position is
nonzero. -/
theorem error_stop_characterization_witness :
    shouldStopTracking
      { range := (2, 5), forced := false, offset := 0,
        abbreviation := some (.error "ab)" 1 "m"), activationOptions := none } 4 = true :=
  (error_stop_characterization _ 4 "ab)" 1 "m" rfl rfl (by decide) (by decide)).mpr
    (Or.inr (Or.inr (by decide)))

lemma scope_name_eq (ctx : CSSContext) :
    getCSSAbbreviationContext ctx = cssScopeNameSpec ctx := by
  unfold getCSSAbbreviationContext cssScopeNameSpec
  cases hcur : ctx.current with
  | none => rfl
  | some cur =>
    cases hanc : last ctx.ancestors with
    | none =>
      have hnil : ctx.ancestors = [] := by
        unfold last at hanc
        exact List.getLast?_eq_none_iff.mp hanc
      by_cases hpv : cur.type = TokenType.PropertyValue
      · rcases cur with ⟨n, ty, r⟩
        cases ty <;> simp_all [hanc]
      · by_cases hsel : cur.type = TokenType.Selector <;> simp_all [hanc, hnil]
    | some p =>
      have hne : ¬ ctx.ancestors = [] := by
        intro hnil
        rw [hnil] at hanc
        exact Option.noConfusion hanc
      by_cases hpv : cur.type = TokenType.PropertyValue
      · simp [hanc, hpv]
      · by_cases hsel : cur.type = TokenType.Selector <;> simp_all [hanc, hne]

/-- C1 (amended): for every stylesheet activation at an allowed position
the resolved context name follows the code's trichotomy: nearest
ancestor property name for a property value with an ancestor, the
Section marker for a selector with no ancestors (in particular the first
character typed on an empty top-level selector line), and the Global
marker otherwise (in particular a selector inside another selector's
body). -/
theorem css_scope_trichotomy (env : Env) (pos : Nat) (syn : String)
    (ctx : CSSContext) (cfg : UserConfig)
    (h : getCSSActivationContext env pos syn ctx = some cfg) :
    cfg.context = some { name := cssScopeNameSpec ctx, attributes := none } := by
  unfold getCSSActivationContext at h
  cases hcur : ctx.current with
  | none =>
    rw [hcur] at h
    exact Option.noConfusion h
  | some cur =>
    simp only [hcur] at h
    split at h
    · rw [← scope_name_eq]
      injection h with h'
      rw [← h']
    · exact Option.noConfusion h

/-- Witness for C1: a caret inside a property value of property `color`
nested under a selector resolves the context name to `color`. -/
theorem css_scope_trichotomy_witness :
    ({ syn := "css", type := "stylesheet",
       context := some { name := "color", attributes := none },
       options := { pos := 18, inlineCss := some false } } : UserConfig).context =
      some { name := "color", attributes := none } :=
  css_scope_trichotomy baseEnv 18 "css"
    { current := some { name := "red", type := TokenType.PropertyValue, range := (17, 20) }
      ancestors := [{ name := "div", type := TokenType.Selector, range := (0, 24) },
                    { name := "color", type := TokenType.PropertyName, range := (8, 13) }]
      inline := false }
    _ rfl

/-- Counterexample for C1: per the claim (and the spec's test), a caret
on an empty top-level selector line should yield the Global marker; the
code resolves the Section marker instead. -/
theorem css_scope_cex :
    getActivationContext envC1 1 =
      .ok (some { syn := "css", type := "stylesheet",
                  context := some { name := CSSAbbreviationScope.Section, attributes := none },
                  options := { pos := 1, inlineCss := some false } }) ∧
    CSSAbbreviationScope.Section ≠ CSSAbbreviationScope.Global :=
  ⟨rfl, by decide⟩

/-- C9 (amended): a selection/caret movement event never starts or stops
tracking; it updates the remembered last caret position exactly when the
enable flag — re-read at the event — is true, and leaves the state
untouched when the flag is disabled. -/
theorem selection_event_updates_lastPos (env : Env) (caret : Nat) (st : TrackerSlot) :
    (onSelectionChange env caret st).tracker = st.tracker ∧
    (onSelectionChange env caret st).lastPos =
      (if isEnabled env = true then some caret else st.lastPos) := by
  by_cases h : env.enabled <;> simp [onSelectionChange, isEnabled, h]

/-- Counterexample for C9: with the enable flag off, a selection event
does not update the remembered caret position, contradicting the claim
that the update happens on every such event. -/
theorem selection_event_cex :
    (onSelectionChange envOff 5 { lastPos := none, tracker := none }).lastPos = none ∧
    (none : Option Nat) ≠ some 5 :=
  ⟨rfl, by decide⟩

/-- C3 (amended): a structural query result the code can read but that
carries no usable token data yields "not allowed" (`.ok none`) — no
current CSS token, a current inline HTML token without an embedded style
island, or an embedded style island with no current CSS token; but a
structural query that throws propagates its exception out of
`getActivationContext` — the source installs no handler.  Stated for the
CSS and the HTML branch. -/
theorem parser_exception_propagates (env : Env) (pos : Nat) (e : Unit) :
    (isCSS env.docSyn = true → env.cssCtxQ pos = .error e →
      getActivationContext env pos = .error e) ∧
    (isCSS env.docSyn = false → isHTML env.docSyn = true →
      env.htmlCtxQ pos (isXML env.docSyn) = .error e →
      getActivationContext env pos = .error e) ∧
    (∀ ctx, isCSS env.docSyn = true → env.cssCtxQ pos = .ok ctx →
      ctx.current = none →
      getActivationContext env pos = .ok none) ∧
    (∀ ctx cur, isCSS env.docSyn = false → isHTML env.docSyn = true →
      env.htmlCtxQ pos (isXML env.docSyn) = .ok ctx →
      ctx.css = none → ctx.current = some cur →
      getActivationContext env pos = .ok none) ∧
    (∀ ctx cssCtx, isCSS env.docSyn = false → isHTML env.docSyn = true →
      env.htmlCtxQ pos (isXML env.docSyn) = .ok ctx →
      ctx.css = some cssCtx → cssCtx.current = none →
      getActivationContext env pos = .ok none) := by
  refine ⟨?_, ?_, ?_, ?_, ?_⟩
  · intro h1 h2
    simp [getActivationContext, h1, h2]
  · intro h1 h2 h3
    simp [getActivationContext, h1, h2, h3]
  · intro ctx h1 h2 h3
    simp [getActivationContext, getCSSActivationContext, h1, h2, h3]
  · intro ctx cur h1 h2 h3 h4 h5
    simp [getActivationContext, h1, h2, h3, h4, h5]
  · intro ctx cssCtx h1 h2 h3 h4 h5
    simp [getActivationContext, getCSSActivationContext, h1, h2, h3, h4, h5]

/-- Witness for C3 (amended): a throwing CSS query and a throwing HTML
query both propagate their exception; a CSS context with no current
token, an HTML context with a current inline token and no embedded
island, and an embedded island with no current CSS token all deny
activation. -/
theorem parser_exception_propagates_witness :
    getActivationContext envErrCss 0 = .error () ∧
    getActivationContext baseEnv 2 = .error () ∧
    getActivationContext envCssNoTok 1 = .ok none ∧
    getActivationContext envHtmlInTag 4 = .ok none ∧
    getActivationContext envEmbNoTok 6 = .ok none :=
  ⟨(parser_exception_propagates envErrCss 0 ()).1 rfl rfl,
   (parser_exception_propagates baseEnv 2 ()).2.1 rfl rfl rfl,
   (parser_exception_propagates envCssNoTok 1 ()).2.2.1 _ rfl rfl rfl,
   (parser_exception_propagates envHtmlInTag 4 ()).2.2.2.1 _ _ rfl rfl rfl rfl rfl,
   (parser_exception_propagates envEmbNoTok 6 ()).2.2.2.2 _ _ rfl rfl rfl rfl rfl⟩

/-- Counterexample for C3: when the CSS structural parser throws, the
resolution does not return "not allowed" (`.ok none`): the exception
escapes. -/
theorem parser_exception_cex :
    getActivationContext envErrCss 3 = .error () ∧
    getActivationContext envErrCss 3 ≠ .ok none :=
  ⟨rfl, fun h => Except.noConfusion h⟩

/-- C2 (amended): when the HTML structural query reports an
embedded-style context, resolution delegates to the stylesheet branch;
the effective syntax is the enclosing `style` element's non-empty `type`
attribute value when present, and otherwise the document's own declared
syntax (the markup syntax — not a stylesheet default). -/
theorem embedded_style_delegation (env : Env) (pos : Nat) (ctx : HTMLContext)
    (cssCtx : CSSContext)
    (hcss : isCSS env.docSyn = false) (hhtml : isHTML env.docSyn = true)
    (hq : env.htmlCtxQ pos (isXML env.docSyn) = .ok ctx)
    (hc : ctx.css = some cssCtx) :
    getActivationContext env pos =
      .ok (getCSSActivationContext env pos
        (jsOrStr (getEmbeddedStyleSyn env ctx) env.docSyn) cssCtx) ∧
    (∀ v, getEmbeddedStyleSyn env ctx = some v → v ≠ "" →
      jsOrStr (getEmbeddedStyleSyn env ctx) env.docSyn = v) ∧
    (getEmbeddedStyleSyn env ctx = none →
      jsOrStr (getEmbeddedStyleSyn env ctx) env.docSyn = env.docSyn) := by
  refine ⟨?_, ?_, ?_⟩
  · simp [getActivationContext, hcss, hhtml, hq, hc]
  · intro v hv hne
    rw [hv]
    simp [jsOrStr, hne]
  · intro hv
    rw [hv]
    rfl

/-- Witness for C2 (amended): with a `type="text/css"` attribute the
delegation uses `text/css` as the effective syntax. -/
theorem embedded_style_delegation_witness :
    getActivationContext envC2w 5 =
      .ok (getCSSActivationContext envC2w 5 "text/css" cssPropName) :=
  (embedded_style_delegation envC2w 5
    { current := none
      ancestors := [{ name := "style", range := (0, 22) }]
      css := some cssPropName }
    cssPropName rfl rfl rfl rfl).1

/-- Counterexample for C2: with no `type` attribute the effective syntax
the code hands to the stylesheet branch is the document's own syntax
`html` — not a stylesheet syntax, contradicting the claimed fallback to
"the document's default stylesheet syntax". -/
theorem embedded_syntax_cex :
    getActivationContext envC2 9 =
      .ok (some { syn := "html", type := "stylesheet",
                  context := some { name := CSSAbbreviationScope.Global, attributes := none },
                  options := { pos := 9, inlineCss := some false } }) ∧
    isCSS "html" = false :=
  ⟨rfl, by decide⟩

/-- C10: completion-driven extraction starts a tracker unconditionally
whenever the external extract query yields a span: the activation
context is resolved at `abbr.start + 1` (not at the completion
position), and the tracker is created even when that resolution yields
no context (absent activation options); `none` is returned only when
extraction yields no abbreviation. -/
theorem extract_tracker_spec (env : Env) (ctxPos : Nat) :
    (env.extractQ ctxPos env.docSyn (if isJSX env.docSyn then jsxTriggerStr else "") = none →
      extractTracker env ctxPos = .ok none) ∧
    (∀ a o,
      env.extractQ ctxPos env.docSyn (if isJSX env.docSyn then jsxTriggerStr else "") = some a →
      getActivationContext env (a.start + 1) = .ok o →
      extractTracker env ctxPos = .ok (some (startTracking env a.start a.endPos
        (if isJSX env.docSyn then jsxTriggerStr else "").length o false))) := by
  constructor
  · intro h
    simp [extractTracker, h]
  · intro a o h1 h2
    simp [extractTracker, h1, h2]

/-- Witness for C10: the tracker is created with absent activation
options when context resolution yields no context. -/
theorem extract_tracker_spec_witness :
    extractTracker envC10 7 =
      .ok (some { range := (2, 5), forced := false, offset := 0,
                  abbreviation := none, activationOptions := none }) :=
  (extract_tracker_spec envC10 7).2 { start := 2, endPos := 5, abbr := "abc" } none rfl rfl

/-- C8: for JSX-classified syntax, boundary detection succeeds exactly
when the two-character window is the fixed JSX trigger followed by a
character of the class `[A-Za-z.#[(]`; on success the span starts at
`pos - 2` and the offset equals the trigger prefix length. -/
theorem jsx_detect_characterization (pre : String) (syn : String) (pos : Nat)
    (hjsx : isJSX syn = true) :
    (detectStartCand pre syn pos = some (pos - 2, jsxTriggerStr.length) ↔
      ∃ c, pre = ⟨[jsxTrigger, c]⟩ ∧ isJSXAbbrStartCh c = true) ∧
    (∀ r, detectStartCand pre syn pos = some r → r = (pos - 2, jsxTriggerStr.length)) := by
  have hd : detectStartCand pre syn pos =
      (if pre.length == 2 && charAt? pre 0 == some jsxTrigger &&
          (charAt? pre 1).any isJSXAbbrStartCh then
        some (pos - 2, jsxTriggerStr.length)
      else none) := by
    unfold detectStartCand
    rw [if_pos hjsx]
  rw [hd]
  constructor
  · constructor
    · intro h
      split at h
      · rename_i hcond
        simp only [Bool.and_eq_true, beq_iff_eq] at hcond
        obtain ⟨⟨h1, h2⟩, h3⟩ := hcond
        obtain ⟨l⟩ := pre
        rcases l with _ | ⟨a, _ | ⟨b, _ | ⟨c3, tl⟩⟩⟩
        · exact absurd h1 (by simp [String.length])
        · exact absurd h1 (by simp [String.length])
        · simp only [charAt?] at h2 h3
          simp only [List.get?] at h2 h3
          injection h2 with h2'
          subst h2'
          exact ⟨b, rfl, by simpa [Option.any] using h3⟩
        · refine absurd h1 ?_
          simp [String.length]
      · exact Option.noConfusion h
    · rintro ⟨c, hpre, hc⟩
      subst hpre
      simp [charAt?, hc]
  · intro r h
    split at h
    · exact (Option.some.inj h).symm
    · exact Option.noConfusion h

/-- Witness for C8: window `<d` in a JSX document at caret 5 detects the
span start 3 with offset 1. -/
theorem jsx_detect_characterization_witness :
    detectStartCand "<d" "jsx" 5 = some (3, 1) :=
  (jsx_detect_characterization "<d" "jsx" 5 rfl).1.mpr ⟨'d', rfl, by decide⟩

/-- C7: whenever boundary detection finds a span start, the detected
span's end is `pos + 1` exactly when the character immediately before
the caret is an opening bracket whose matching closer sits immediately
at the caret (the auto-inserted closer is absorbed), and `pos`
otherwise. -/
theorem tracked_end_absorbs_pair (env : Env) (pos : Nat) (t : TrackedAbbreviation)
    (h : startAbbreviationTracking env pos = .ok (some t)) :
    t.range.2 = (if absorbsClosingPair env.content pos then pos + 1 else pos) := by
  simp only [startAbbreviationTracking] at h
  cases hd : detectStartCand (substr env.content (pos - 2) pos) env.docSyn pos with
  | none =>
    simp only [hd] at h
    injection h with h'
    exact Option.noConfusion h'
  | some r =>
    obtain ⟨start, offset⟩ := r
    simp only [hd] at h
    cases hact : getActivationContext env pos with
    | error e =>
      simp only [hact] at h
      exact Except.noConfusion h
    | ok o =>
      cases o with
      | none =>
        simp only [hact] at h
        injection h with h'
        exact Option.noConfusion h'
      | some options =>
        simp only [hact] at h
        split at h
        · injection h with h'
          exact Option.noConfusion h'
        · injection h with h'
          injection h' with h''
          rw [← h'']
          show (if extendEndFlag env (substr env.content (pos - 2) pos) pos
                then pos + 1 else pos) =
            (if absorbsClosingPair env.content pos then pos + 1 else pos)
          rw [extendEnd_eq_absorb env pos (detect_some_ne_empty _ _ _ _ hd)]

/-- Witness for C7: typing `(` immediately before the existing `)` at
caret 3 yields a span whose end 4 includes the closer. -/
theorem tracked_end_absorbs_pair_witness :
    ({ range := (2, 4), forced := false, offset := 0, abbreviation := none,
       activationOptions := some { syn := "html", type := "markup", context := none,
                                   options := { pos := 3, inlineCss := none } } } :
      TrackedAbbreviation).range.2 =
      (if absorbsClosingPair envC7.content 3 then 3 + 1 else 3) ∧
    absorbsClosingPair envC7.content 3 = true :=
  ⟨tracked_end_absorbs_pair envC7 3 _ rfl, rfl⟩

end NovaEmmet
